import Mathlib

/-!
Verification development for the `PdfHighlighter` React component of
react-pdf-highlighter-extended (src/components/PdfHighlighter.tsx).

The component is embedded shallowly: its mutable refs and React state become
fields of an explicit `CompState` record, its event handlers become pure
state-transition functions, and the DOM (elements, connectivity, highlight
layer containers) becomes an explicit `Dom` record.  Helper libraries that the
component imports but whose sources are not part of this excerpt
(`lib/coordinates`, `lib/get-bounding-rect`, `lodash.debounce`,
`lib/group-highlights-by-page`, `lib/pdfjs-dom`) are modelled from the
documentation; each such definition carries a doc comment starting with
"Modelled from the spec".  Coordinates use rationals, so floating-point
round-trips become exact algebraic identities.
-/

/-- A rectangle in current on-screen viewport pixel units, tied to a page
number (the LTWHP shape used by `ViewportPosition`). -/
structure VRect where
  left : ℚ
  top : ℚ
  width : ℚ
  height : ℚ
  pageNumber : Nat
deriving DecidableEq

/-- A rectangle in scale-independent ("scaled") units, same shape as `VRect`
but normalized by the page's current viewport scale. -/
structure SRect where
  left : ℚ
  top : ℚ
  width : ℚ
  height : ℚ
  pageNumber : Nat
deriving DecidableEq

/-- A page viewport: the current zoom scale together with the page's height in
viewport pixels (needed to mediate between the DOM convention, origin at the
top-left, and the PDF convention, origin at the bottom-left). -/
structure Viewport where
  scale : ℚ
  height : ℚ
deriving DecidableEq

/-- Modelled from the spec: `toScaled(viewportRect, viewport)` of
`lib/coordinates` (not part of this excerpt) "divides rectangle coordinates by
viewport scale factor; records whether source used PDF coordinate convention
(origin bottom-left) vs DOM convention (origin top-left)".  When the PDF
convention is recorded, the vertical coordinate is stored measured from the
bottom of the page. -/
def viewportToScaled (r : VRect) (vp : Viewport) (usePdfCoordinates : Bool) :
    SRect :=
  if usePdfCoordinates then
    { left := r.left / vp.scale
      top := (vp.height - (r.top + r.height)) / vp.scale
      width := r.width / vp.scale
      height := r.height / vp.scale
      pageNumber := r.pageNumber }
  else
    { left := r.left / vp.scale
      top := r.top / vp.scale
      width := r.width / vp.scale
      height := r.height / vp.scale
      pageNumber := r.pageNumber }

/-- Modelled from the spec: `toViewport(scaledRect, viewport,
usePdfCoordinates)` of `lib/coordinates` (not part of this excerpt), the
"inverse operation" of `toScaled`: multiplies the stored coordinates back by
the viewport scale, undoing the bottom-left flip when the PDF convention was
recorded.  This is the `scaledToViewport` imported at line 22 of
PdfHighlighter.tsx. -/
def scaledToViewport (s : SRect) (vp : Viewport) (usePdfCoordinates : Bool) :
    VRect :=
  if usePdfCoordinates then
    { left := s.left * vp.scale
      top := vp.height - (s.top * vp.scale + s.height * vp.scale)
      width := s.width * vp.scale
      height := s.height * vp.scale
      pageNumber := s.pageNumber }
  else
    { left := s.left * vp.scale
      top := s.top * vp.scale
      width := s.width * vp.scale
      height := s.height * vp.scale
      pageNumber := s.pageNumber }

/-- Joining two viewport rectangles: the smallest rectangle covering both,
computed by min/max over the left/top/right/bottom extents. -/
def joinRects (a b : VRect) : VRect :=
  { left := min a.left b.left
    top := min a.top b.top
    width := max (a.left + a.width) (b.left + b.width) - min a.left b.left
    height := max (a.top + a.height) (b.top + b.height) - min a.top b.top
    pageNumber := a.pageNumber }

/-- Modelled from the spec: `getBoundingRect` of `lib/get-bounding-rect` (not
part of this excerpt), which reduces the constituent client rects of a
multi-node DOM selection "to one bounding rectangle via min/max over all
constituent client rects". -/
def getBoundingRect (rs : List VRect) : VRect :=
  match rs with
  | [] => { left := 0, top := 0, width := 0, height := 0, pageNumber := 0 }
  | a :: rest => rest.foldl joinRects a

/-- Predicate: rectangle `b` covers `r`, meaning every point of `r` lies inside `b`. -/
def rectCovers (b r : VRect) : Prop :=
  b.left ≤ r.left ∧ b.top ≤ r.top ∧
    r.left + r.width ≤ b.left + b.width ∧
    r.top + r.height ≤ b.top + b.height

/-- Modelled from the spec: trailing-edge debounce (`lodash.debounce`, an
external dependency): overlapping rapid events "collapse to the last call
after a quiet period".  Given the call times of a debounced function with
wait `w`, the wrapped function fires `w` after every call that is not
followed by another call strictly within its wait window. -/
def debounceFires (wait : ℚ) (events : List ℚ) : List ℚ :=
  (events.filter
      (fun t => ! events.any (fun e => decide (t < e) && decide (e < t + wait)))).map
    (fun t => t + wait)

/-- The debounce window used by `debouncedAfterSelection` (PdfHighlighter.tsx
line 318): 100 ms. -/
def debounceWait : ℚ := 100

/-- An opaque React element value (the component never inspects elements, it
only stores and forwards them). -/
structure ReactElem where
  elemId : Nat
deriving DecidableEq

/-- Highlight content: either extracted text or a captured image (the
`Content` type of `types.ts`, described by the data model as "text or
image"). -/
inductive Content where
  | text (s : String)
  | image (s : String)
deriving DecidableEq

/-- A scale-independent position: one bounding rectangle, the constituent
rectangles, and the flag recording whether coordinates are already in PDF
user-space. -/
structure ScaledPosition where
  boundingRect : SRect
  rects : List SRect
  usePdfCoordinates : Bool
deriving DecidableEq

/-- A position in current viewport pixels: one bounding rectangle plus the
constituent rectangles. -/
structure ViewportPosition where
  boundingRect : VRect
  rects : List VRect
deriving DecidableEq

/-- A committed highlight: identifier, content, scaled position. -/
structure Highlight where
  id : String
  content : Content
  position : ScaledPosition
deriving DecidableEq

/-- An in-progress, unconfirmed highlight held only in memory until the
caller commits or discards it. -/
structure GhostHighlight where
  content : Content
  position : ScaledPosition
deriving DecidableEq

/-- Modelled from the spec: `viewportPositionToScaled` of `lib/coordinates`
(not part of this excerpt) converts a `ViewportPosition` "immediately to
ScaledPosition for storage", scaling every rectangle by its page's current
viewport; DOM-derived rectangles use the top-left convention, so the
PDF-coordinates flag is recorded as false. -/
def viewportPositionToScaled (pos : ViewportPosition)
    (viewportOf : Nat → Viewport) : ScaledPosition :=
  { boundingRect :=
      viewportToScaled pos.boundingRect (viewportOf pos.boundingRect.pageNumber)
        false
    rects :=
      pos.rects.map (fun r => viewportToScaled r (viewportOf r.pageNumber) false)
    usePdfCoordinates := false }

/-- An entry of the list passed to `groupHighlightsByPage`: a committed
highlight or the ghost highlight. -/
inductive AnyHighlight where
  | committed (h : Highlight)
  | ghost (g : GhostHighlight)
deriving DecidableEq

/-- The page a highlight's position falls on. -/
def anyHighlightPage (h : AnyHighlight) : Nat :=
  match h with
  | AnyHighlight.committed h => h.position.boundingRect.pageNumber
  | AnyHighlight.ghost g => g.position.boundingRect.pageNumber

/-- Modelled from the spec: `groupHighlightsByPage` of
`lib/group-highlights-by-page` (not part of this excerpt): drops null
entries and groups the highlights by the page "that highlight's position
falls on". -/
def groupHighlightsByPage (hs : List (Option AnyHighlight)) (page : Nat) :
    List AnyHighlight :=
  (hs.filterMap id).filter (fun h => anyHighlightPage h == page)

/-- The props handed to a page's `HighlightLayer` that determine the visual
rectangle set rendered on that page (PdfHighlighter.tsx lines 358-372):
the page's slice of the grouped highlights, the page number and the
scrolled-to highlight id. -/
structure RenderedProps where
  pageHighlights : List AnyHighlight
  pageNumber : Nat
  scrolledToHighlightId : Option String
deriving DecidableEq

/-- A highlight rendered at viewport coordinates, as received by tips. -/
structure VHighlight where
  id : String
  content : Content
  position : ViewportPosition
deriving DecidableEq

/-- Tip content: a plain React element or a render function of the
highlight. -/
inductive TipContent where
  | elem (e : ReactElem)
  | fn (f : VHighlight → ReactElem)

/-- An external tip: the highlight it attaches to plus its content. -/
structure Tip where
  highlight : VHighlight
  content : TipContent

/-- A DOM text-selection range, as the component observes it: whether its
common ancestor lies inside the component's container, the pages it spans
(`getPagesFromRange`), its client rectangles (`getClientRects`) and its text
(`range.toString()`).  The three helper results are modelled as fields since
their libraries are not part of this excerpt. -/
structure Range where
  inContainer : Bool
  pages : List Nat
  clientRects : List VRect
  textContent : String
deriving DecidableEq

/-- A DOM selection: collapsed flag plus its ranges (`rangeCount` /
`getRangeAt(0)`). -/
structure Selection where
  isCollapsed : Bool
  ranges : List Range
deriving DecidableEq

/-- The DOM as the highlight-layer machinery sees it.  Elements are numeric
ids; `connected` is `Element.isConnected`; `layerChild d` is the highlight
layer container currently attached under the text-layer div `d`; `nextElem`
allocates fresh element ids. -/
structure Dom where
  connected : Nat → Bool
  layerChild : Nat → Option Nat
  nextElem : Nat

/-- A per-page React root (`HighlightRoot` of PdfHighlighter.tsx lines
62-65): the react root id and the container element it renders into. -/
structure HighlightRoot where
  rootId : Nat
  container : Nat
deriving DecidableEq

/-- The component's environment: document size, the text-layer div of each
page (none while the page's text layer is not rendered), whether the viewer
exists, the caller-supplied highlights and `onSelectionFinished` callback
(its returned element), and each page's current viewport. -/
structure Env where
  numPages : Nat
  pageTextLayer : Nat → Option Nat
  viewerPresent : Bool
  highlights : List Highlight
  onSelectionFinished : ScaledPosition → Content → Option ReactElem
  viewportOf : Nat → Viewport

/-- The component's mutable state: React state (`tipPosition`, `tipChildren`,
`tip`), the refs (`ghostHighlightRef`, `isCollapsedRef`, `rangeRef`,
`scrolledToHighlightIdRef`, `isAreaSelectionInProgressRef`,
`highlightRootsRef`), the DOM, and observable effects: the per-container
rendered props, the number of `renderHighlightLayers` runs, the arguments of
`onSelectionFinished` calls, the number of `onScrollChange` calls, whether
the scroll listener is attached, and whether a listener re-attach is
scheduled. -/
structure CompState where
  tipPosition : Option ViewportPosition
  tipChildren : Option ReactElem
  tip : Option Tip
  ghost : Option GhostHighlight
  isCollapsed : Bool
  range : Option Range
  scrolledToHighlightId : Option String
  areaSelectionInProgress : Bool
  roots : Nat → Option HighlightRoot
  nextRoot : Nat
  dom : Dom
  rendered : Nat → Option RenderedProps
  renderCount : Nat
  selectionFinishedCalls : List (ScaledPosition × Content)
  onScrollChangeCalls : Nat
  scrollListenerAttached : Bool
  reattachScheduled : Bool

/-- The pages iterated by `renderHighlightLayers` (PdfHighlighter.tsx line
334): 1 to `numPages`. -/
def pagesList (env : Env) : List Nat :=
  (List.range env.numPages).map (fun i => i + 1)

/-- The props that `renderHighlightLayer` renders for a page in a given
state. -/
def propsFor (env : Env) (s : CompState) (page : Nat) : RenderedProps :=
  { pageHighlights :=
      groupHighlightsByPage
        (env.highlights.map (fun h => some (AnyHighlight.committed h)) ++
          [s.ghost.map AnyHighlight.ghost]) page
    pageNumber := page
    scrolledToHighlightId := s.scrolledToHighlightId }

/-- Modelled from the spec: `findOrCreateContainerLayer` of `lib/pdfjs-dom`
(not part of this excerpt): returns the existing highlight-layer container
under the text-layer div, "recreating the container lazily" as a fresh child
of the div when none exists (the fresh element is connected exactly when the
div is). -/
def findOrCreateContainerLayer (dom : Dom) (d : Nat) : Nat × Dom :=
  match dom.layerChild d with
  | some e => (e, dom)
  | none =>
      (dom.nextElem,
        { connected := fun e =>
            if e = dom.nextElem then dom.connected d else dom.connected e
          layerChild := fun x =>
            if x = d then some dom.nextElem else dom.layerChild x
          nextElem := dom.nextElem + 1 })

/-- Embeds `findOrCreateHighlightLayer` (PdfHighlighter.tsx lines 145-153): null
when the page has no text layer, otherwise the page's highlight-layer
container under its text-layer div. -/
def findOrCreateHighlightLayer (env : Env) (dom : Dom) (page : Nat) :
    Option (Nat × Dom) :=
  match env.pageTextLayer page with
  | none => none
  | some d => some (findOrCreateContainerLayer dom d)

/-- Embeds `renderHighlightLayer` (PdfHighlighter.tsx lines 355-373): returns
unchanged when the viewer is gone, otherwise renders the page's
`HighlightLayer` props into the root's container. -/
def renderHighlightLayer (env : Env) (hr : HighlightRoot) (page : Nat)
    (s : CompState) : CompState :=
  if env.viewerPresent then
    { s with
        rendered := fun c =>
          if c = hr.container then some (propsFor env s page) else s.rendered c }
  else s

/-- The else-branch of the per-page loop body of `renderHighlightLayers`
(PdfHighlighter.tsx lines 340-351): look up or lazily create the page's
highlight layer; when the page has a text layer, create a fresh React root
on it, record it, and render. -/
def createAndRender (env : Env) (s : CompState) (page : Nat) : CompState :=
  match findOrCreateHighlightLayer env s.dom page with
  | none => s
  | some (e, dom2) =>
      let hr : HighlightRoot := { rootId := s.nextRoot, container := e }
      let s2 : CompState :=
        { s with
            dom := dom2
            nextRoot := s.nextRoot + 1
            roots := fun p => if p = page then some hr else s.roots p }
      renderHighlightLayer env hr page s2

/-- The per-page loop body of `renderHighlightLayers` (PdfHighlighter.tsx
lines 335-351): reuse the page's existing React root when its container is
still connected to the document, otherwise fall back to
`createAndRender`. -/
def processPage (env : Env) (s : CompState) (page : Nat) : CompState :=
  match s.roots page with
  | some hr =>
      if s.dom.connected hr.container then renderHighlightLayer env hr page s
      else createAndRender env s page
  | none => createAndRender env s page

/-- Embeds `renderHighlightLayers` (PdfHighlighter.tsx lines 333-353): run the
per-page body for every page of the document (also counting the run). -/
def renderHighlightLayers (env : Env) (s : CompState) : CompState :=
  let s2 := (pagesList env).foldl (processPage env) s
  { s2 with renderCount := s2.renderCount + 1 }

/-- Embeds `hideTipAndGhostHighlight` (PdfHighlighter.tsx lines 175-181): clear the
tip position, children and tip, drop the ghost highlight, and re-render the
highlight layers. -/
def hideTipAndGhostHighlight (env : Env) (s : CompState) : CompState :=
  renderHighlightLayers env
    { s with
        tipPosition := none
        tipChildren := none
        ghost := none
        tip := none }

/-- Embeds `showTip` (PdfHighlighter.tsx lines 155-173): bail out while a selection
is in progress, a ghost highlight exists, or an area selection is being made;
otherwise set the tip position and children (calling function content on the
highlight). -/
def showTip (tip : Tip) (s : CompState) : CompState :=
  if !s.isCollapsed || s.ghost.isSome || s.areaSelectionInProgress then s
  else
    let s1 := { s with tipPosition := some tip.highlight.position }
    match tip.content with
    | TipContent.elem e => { s1 with tipChildren := some e }
    | TipContent.fn f => { s1 with tipChildren := some (f tip.highlight) }

/-- Embeds `onScroll` (PdfHighlighter.tsx lines 249-253): notify the caller, reset
the scrolled-to highlight id and re-render the highlight layers. -/
def onScroll (env : Env) (s : CompState) : CompState :=
  renderHighlightLayers env
    { s with
        onScrollChangeCalls := s.onScrollChangeCalls + 1
        scrolledToHighlightId := none }

/-- A scroll event as dispatched by the browser: `onScroll` runs only while
the scroll listener is attached to the viewer container. -/
def handleScrollEvent (env : Env) (s : CompState) : CompState :=
  if s.scrollListenerAttached then onScroll env s else s

/-- Embeds `scrollTo` (PdfHighlighter.tsx lines 183-216): detach the scroll
listener, scroll the page into view (the programmatic scroll fires some
number of browser scroll events, here `n`), record the target highlight's id,
re-render the highlight layers, and schedule the listener re-attach 100 ms
later. -/
def scrollTo (env : Env) (h : Highlight) (n : Nat) (s : CompState) :
    CompState :=
  let s1 := { s with scrollListenerAttached := false }
  let s2 := (handleScrollEvent env)^[n] s1
  let s3 :=
    renderHighlightLayers env { s2 with scrolledToHighlightId := some h.id }
  { s3 with reattachScheduled := true }

/-- Embeds `onMouseDown` (PdfHighlighter.tsx lines 255-264): ignore pointer-downs on
non-HTML-element targets and on the tip container; any other pointer-down
discards the tip and ghost highlight. -/
def onMouseDown (targetIsHTMLElement targetInTipContainer : Bool) (env : Env)
    (s : CompState) : CompState :=
  if !targetIsHTMLElement || targetInTipContainer then s
  else hideTipAndGhostHighlight env s

/-- The key code tested by `handleKeyDown`. -/
def escapeKey : String := "Escape"

/-- Embeds `handleKeyDown` (PdfHighlighter.tsx lines 266-272), exactly as written:
on Escape it re-renders the highlight layers; the call to
`hideTipAndGhostHighlight` is commented out in the source. -/
def handleKeyDown (code : String) (env : Env) (s : CompState) : CompState :=
  if code = escapeKey then renderHighlightLayers env s else s

/-- Embeds `onSelectionChange` (PdfHighlighter.tsx lines 223-247).  The container
(when mounted) and the document's selection are inputs from the DOM.  Returns
the new state together with whether `debouncedAfterSelection` was invoked. -/
def onSelectionChange (container : Option Unit) (selection : Option Selection)
    (s : CompState) : CompState × Bool :=
  match selection with
  | none => (s, false)
  | some sel =>
      let newRange := sel.ranges.head?
      if sel.isCollapsed then ({ s with isCollapsed := true }, false)
      else
        match newRange, container with
        | some r, some _ =>
            if r.inContainer then
              ({ s with isCollapsed := false, range := some r }, true)
            else (s, false)
        | _, _ => (s, false)

/-- Embeds `afterSelection` (PdfHighlighter.tsx lines 274-316): bail out on a
missing range, a collapsed selection, an empty page list or an empty
client-rect list; otherwise reduce the client rects to one bounding
rectangle, convert the position to scaled coordinates, set the tip position
and children, and invoke the caller's `onSelectionFinished` with the scaled
position and extracted text (recorded in `selectionFinishedCalls`; the two
continuations it also receives are `hideTipAndGhostHighlight` and
`transformSelection` below). -/
def afterSelection (env : Env) (s : CompState) : CompState :=
  match s.range with
  | none => s
  | some r =>
      if s.isCollapsed then s
      else if r.pages.isEmpty then s
      else if r.clientRects.isEmpty then s
      else
        let boundingRect := getBoundingRect r.clientRects
        let viewportPosition : ViewportPosition :=
          { boundingRect := boundingRect, rects := r.clientRects }
        let content := Content.text r.textContent
        let scaledPosition :=
          viewportPositionToScaled viewportPosition env.viewportOf
        { s with
            tipPosition := some viewportPosition
            tipChildren := env.onSelectionFinished scaledPosition content
            selectionFinishedCalls :=
              s.selectionFinishedCalls ++ [(scaledPosition, content)] }

/-- The commit-as-ghost continuation passed to `onSelectionFinished`
(PdfHighlighter.tsx lines 307-314, the `transformSelection` parameter of the
props): store a ghost highlight with exactly the finalized content and scaled
position, then re-render the highlight layers. -/
def transformSelection (env : Env) (content : Content)
    (scaledPosition : ScaledPosition) (s : CompState) : CompState :=
  renderHighlightLayers env
    { s with ghost := some { content := content, position := scaledPosition } }

/-- Equality of all component-state fields not touched by the highlight-layer
rendering machinery (everything except `roots`, `nextRoot`, `dom` and
`rendered`). -/
def frameEq (s t : CompState) : Prop :=
  s.tipPosition = t.tipPosition ∧ s.tipChildren = t.tipChildren ∧
    s.tip = t.tip ∧ s.ghost = t.ghost ∧ s.isCollapsed = t.isCollapsed ∧
    s.range = t.range ∧ s.scrolledToHighlightId = t.scrolledToHighlightId ∧
    s.areaSelectionInProgress = t.areaSelectionInProgress ∧
    s.renderCount = t.renderCount ∧
    s.selectionFinishedCalls = t.selectionFinishedCalls ∧
    s.onScrollChangeCalls = t.onScrollChangeCalls ∧
    s.scrollListenerAttached = t.scrollListenerAttached ∧
    s.reattachScheduled = t.reattachScheduled

/-- A sample string for concrete instantiations. -/
def sampleText : String := "hi"

/-- A sample scaled rectangle. -/
def sampleSRect : SRect := { left := 1, top := 2, width := 3, height := 4, pageNumber := 1 }

/-- A sample viewport rectangle. -/
def sampleVRect : VRect := { left := 2, top := 4, width := 6, height := 8, pageNumber := 1 }

/-- A sample scaled position. -/
def sampleScaledPos : ScaledPosition :=
  { boundingRect := sampleSRect, rects := [sampleSRect], usePdfCoordinates := false }

/-- A sample viewport position. -/
def sampleVPos : ViewportPosition :=
  { boundingRect := sampleVRect, rects := [sampleVRect] }

/-- A sample ghost highlight. -/
def sampleGhost : GhostHighlight :=
  { content := Content.text sampleText, position := sampleScaledPos }

/-- A sample React element. -/
def sampleElem : ReactElem := { elemId := 5 }

/-- A sample committed highlight. -/
def sampleHighlight : Highlight :=
  { id := sampleText, content := Content.text sampleText, position := sampleScaledPos }

/-- A sample viewport highlight for a tip. -/
def sampleVHighlight : VHighlight :=
  { id := sampleText, content := Content.text sampleText, position := sampleVPos }

/-- A sample tip. -/
def sampleTip : Tip :=
  { highlight := sampleVHighlight, content := TipContent.elem sampleElem }

/-- A sample DOM holding one connected element, id 0. -/
def sampleDom : Dom :=
  { connected := fun e => e == 0, layerChild := fun _ => none, nextElem := 1 }

/-- A sample DOM selection range lying in the container. -/
def sampleRange : Range :=
  { inContainer := true, pages := [1], clientRects := [sampleVRect],
    textContent := sampleText }

/-- The component state right after mount: everything empty, the scroll
listener attached. -/
def baseState : CompState :=
  { tipPosition := none, tipChildren := none, tip := none, ghost := none
    isCollapsed := true, range := none, scrolledToHighlightId := none
    areaSelectionInProgress := false, roots := fun _ => none, nextRoot := 0
    dom := sampleDom, rendered := fun _ => none, renderCount := 0
    selectionFinishedCalls := [], onScrollChangeCalls := 0
    scrollListenerAttached := true, reattachScheduled := false }

/-- A state holding a ghost highlight. -/
def ghostState : CompState := { baseState with ghost := some sampleGhost }

/-- A state holding a pending ghost highlight together with a visible tip. -/
def ghostTipState : CompState :=
  { baseState with
      ghost := some sampleGhost
      tipPosition := some sampleVPos
      tipChildren := some sampleElem }

/-- A state holding a finished in-container selection. -/
def selectionState : CompState :=
  { baseState with isCollapsed := false, range := some sampleRange }

/-- A sample environment: a one-page document whose text layer is element 0,
with no committed highlights. -/
def sampleEnv : Env :=
  { numPages := 1
    pageTextLayer := fun p => if p = 1 then some 0 else none
    viewerPresent := true
    highlights := []
    onSelectionFinished := fun _ _ => some sampleElem
    viewportOf := fun _ => { scale := 2, height := 100 } }

/-- An environment for a document with no pages (rendering is a no-op). -/
def emptyEnv : Env :=
  { numPages := 0
    pageTextLayer := fun _ => none
    viewerPresent := true
    highlights := []
    onSelectionFinished := fun _ _ => some sampleElem
    viewportOf := fun _ => { scale := 1, height := 0 } }

/-- A second sample viewport rectangle, disjoint from `sampleVRect`. -/
def sampleVRect2 : VRect :=
  { left := 10, top := 1, width := 2, height := 3, pageNumber := 1 }

/-- A selection range spanning two client rectangles (two DOM text nodes) on
one page. -/
def twoRectRange : Range :=
  { inContainer := true, pages := [1],
    clientRects := [sampleVRect, sampleVRect2], textContent := sampleText }

/-- A state holding a finished two-rect selection. -/
def twoRectState : CompState :=
  { baseState with isCollapsed := false, range := some twoRectRange }

/-- The viewport position `afterSelection` builds from a finished range:
the client rects reduced to one bounding rectangle, plus the rects
themselves. -/
def selectionViewportPosition (r : Range) : ViewportPosition :=
  { boundingRect := getBoundingRect r.clientRects, rects := r.clientRects }

/-- The scaled position `afterSelection` passes to `onSelectionFinished`. -/
def selectionScaledPosition (env : Env) (r : Range) : ScaledPosition :=
  viewportPositionToScaled (selectionViewportPosition r) env.viewportOf

/-- The tip, ghost-highlight and highlight-root state of `t` agrees with
`s`. -/
def uiUntouched (s t : CompState) : Prop :=
  t.tipPosition = s.tipPosition ∧ t.tipChildren = s.tipChildren ∧
    t.ghost = s.ghost ∧ t.roots = s.roots ∧ t.rendered = s.rendered

/-- All defensive early returns of the selection and rendering pipeline: each
failure mode (missing selection, collapsed selection, missing range, missing
container, selection outside the container, empty page list, empty
client-rect list, missing text layer) short-circuits without touching the
tip, ghost-highlight or highlight-root state. -/
def DefensiveSpec (env : Env) (s : CompState) (container : Option Unit)
    (sel : Selection) : Prop :=
  onSelectionChange container none s = (s, false) ∧
    (sel.isCollapsed = true →
      uiUntouched s (onSelectionChange container (some sel) s).1 ∧
        (onSelectionChange container (some sel) s).2 = false) ∧
    (sel.isCollapsed = false → sel.ranges = [] →
      onSelectionChange container (some sel) s = (s, false)) ∧
    (sel.isCollapsed = false →
      onSelectionChange none (some sel) s = (s, false)) ∧
    (∀ r, sel.isCollapsed = false → sel.ranges.head? = some r →
      r.inContainer = false →
      onSelectionChange container (some sel) s = (s, false)) ∧
    (s.range = none → afterSelection env s = s) ∧
    (s.isCollapsed = true → afterSelection env s = s) ∧
    (∀ r, s.range = some r → r.pages = [] → afterSelection env s = s) ∧
    (∀ r, s.range = some r → r.clientRects = [] →
      afterSelection env s = s) ∧
    (∀ dom page, env.pageTextLayer page = none →
      findOrCreateHighlightLayer env dom page = none ∧
        createAndRender env s page = s)

/-- What finalizing a selection does: `onSelectionFinished` is invoked exactly
once, with the scaled position and extracted text content; the ghost
highlight is untouched by the finalization itself; the commit continuation
stores a ghost highlight with exactly that content and position and
re-renders; the dismiss continuation clears the tip and the ghost highlight
and re-renders. -/
def SelectionFinishedSpec (env : Env) (s : CompState) (r : Range) : Prop :=
  (afterSelection env s).selectionFinishedCalls =
      s.selectionFinishedCalls ++
        [(selectionScaledPosition env r, Content.text r.textContent)] ∧
    (afterSelection env s).tipPosition = some (selectionViewportPosition r) ∧
    (afterSelection env s).tipChildren =
      env.onSelectionFinished (selectionScaledPosition env r)
        (Content.text r.textContent) ∧
    (afterSelection env s).ghost = s.ghost ∧
    (∀ t : CompState,
      (transformSelection env (Content.text r.textContent)
            (selectionScaledPosition env r) t).ghost =
          some { content := Content.text r.textContent,
                 position := selectionScaledPosition env r } ∧
        (transformSelection env (Content.text r.textContent)
            (selectionScaledPosition env r) t).renderCount =
          t.renderCount + 1) ∧
    (∀ t : CompState,
      (hideTipAndGhostHighlight env t).ghost = none ∧
        (hideTipAndGhostHighlight env t).tipPosition = none ∧
        (hideTipAndGhostHighlight env t).tipChildren = none ∧
        (hideTipAndGhostHighlight env t).renderCount = t.renderCount + 1)

/-- The multi-rect reduction property of a finalized selection: the resulting
viewport position holds exactly one bounding rectangle, the min/max join of
all constituent client rects (covering each of them), and the scaled position
handed to the caller is computed from that already-reduced position. -/
def BoundingReductionSpec (env : Env) (s : CompState) (r : Range) : Prop :=
  (afterSelection env s).tipPosition =
      some { boundingRect := getBoundingRect r.clientRects,
             rects := r.clientRects } ∧
    (∀ rc ∈ r.clientRects, rectCovers (getBoundingRect r.clientRects) rc) ∧
    (afterSelection env s).selectionFinishedCalls =
      s.selectionFinishedCalls ++
        [(viewportPositionToScaled
            { boundingRect := getBoundingRect r.clientRects,
              rects := r.clientRects } env.viewportOf,
          Content.text r.textContent)]

/-- Whether the page currently has a React root whose container is still
connected to the document (the condition of PdfHighlighter.tsx line 338). -/
def hasConnectedRoot (s : CompState) (page : Nat) : Bool :=
  match s.roots page with
  | some hr => s.dom.connected hr.container
  | none => false

/-- Per-page root reuse and lazy recreation: a page whose root container is
still connected is re-rendered through the existing root with nothing
reallocated; a page without a connected root but with a text layer gets a
lazily (re)created container and a fresh root (never the stale one) rendered
with the page's props; a page without a connected root and without a text
layer is skipped entirely. -/
def LayerReuseSpec (env : Env) (s : CompState) (page : Nat) : Prop :=
  (∀ hr, s.roots page = some hr → s.dom.connected hr.container = true →
    (processPage env s page).roots page = some hr ∧
      (processPage env s page).nextRoot = s.nextRoot ∧
      (processPage env s page).dom.nextElem = s.dom.nextElem ∧
      (processPage env s page).rendered hr.container =
        some (propsFor env s page)) ∧
    (hasConnectedRoot s page = false → ∀ d, env.pageTextLayer page = some d →
      ∃ e, (processPage env s page).roots page =
          some { rootId := s.nextRoot, container := e } ∧
        (processPage env s page).dom.layerChild d = some e ∧
        (processPage env s page).rendered e = some (propsFor env s page) ∧
        (processPage env s page).nextRoot = s.nextRoot + 1 ∧
        (∀ hr0, s.roots page = some hr0 → hr0.rootId ≠ s.nextRoot)) ∧
    (hasConnectedRoot s page = false → env.pageTextLayer page = none →
      processPage env s page = s)

/-- Well-formedness of the render state against the environment: element ids
recorded anywhere are below the allocator; distinct pages have distinct
text-layer divs; distinct divs have distinct highlight-layer containers; and
every recorded React root renders into the highlight-layer container of its
page's text-layer div. -/
def WfRender (env : Env) (s : CompState) : Prop :=
  (∀ p d, env.pageTextLayer p = some d → d < s.dom.nextElem) ∧
    (∀ d e, s.dom.layerChild d = some e → e < s.dom.nextElem) ∧
    (∀ p q d, env.pageTextLayer p = some d → env.pageTextLayer q = some d →
      p = q) ∧
    (∀ d1 d2 e, s.dom.layerChild d1 = some e → s.dom.layerChild d2 = some e →
      d1 = d2) ∧
    (∀ p hr, s.roots p = some hr →
      ∃ d, env.pageTextLayer p = some d ∧
        s.dom.layerChild d = some hr.container)

/-- A page is fully rendered in a state: whenever the page has a text layer,
its highlight-layer container exists under it, the page's React root points
at that container, and the page's current props are rendered there. -/
def pageRendered (env : Env) (s : CompState) (p : Nat) : Prop :=
  ∀ d, env.pageTextLayer p = some d →
    ∃ e r, s.dom.layerChild d = some e ∧
      s.roots p = some { rootId := r, container := e } ∧
      s.rendered e = some (propsFor env s p)

lemma rectCovers_refl (a : VRect) : rectCovers a a := by
  refine ⟨le_refl _, le_refl _, le_refl _, le_refl _⟩

lemma joinRects_left_extent (a b : VRect) :
    (joinRects a b).left + (joinRects a b).width =
      max (a.left + a.width) (b.left + b.width) := by
  simp [joinRects]

lemma joinRects_top_extent (a b : VRect) :
    (joinRects a b).top + (joinRects a b).height =
      max (a.top + a.height) (b.top + b.height) := by
  simp [joinRects]

lemma joinRects_covers_left (a b : VRect) : rectCovers (joinRects a b) a := by
  refine ⟨min_le_left _ _, min_le_left _ _, ?_, ?_⟩
  · rw [joinRects_left_extent]; exact le_max_left _ _
  · rw [joinRects_top_extent]; exact le_max_left _ _

lemma joinRects_covers_right (a b : VRect) : rectCovers (joinRects a b) b := by
  refine ⟨min_le_right _ _, min_le_right _ _, ?_, ?_⟩
  · rw [joinRects_left_extent]; exact le_max_right _ _
  · rw [joinRects_top_extent]; exact le_max_right _ _

lemma rectCovers_trans {a b c : VRect} (h1 : rectCovers a b)
    (h2 : rectCovers b c) : rectCovers a c := by
  obtain ⟨l1, t1, r1, b1⟩ := h1
  obtain ⟨l2, t2, r2, b2⟩ := h2
  exact ⟨le_trans l1 l2, le_trans t1 t2, le_trans r2 r1, le_trans b2 b1⟩

lemma foldl_joinRects_covers (l : List VRect) (acc : VRect) :
    rectCovers (l.foldl joinRects acc) acc ∧
      ∀ x ∈ l, rectCovers (l.foldl joinRects acc) x := by
  induction l generalizing acc with
  | nil => exact ⟨rectCovers_refl acc, by intro x hx; cases hx⟩
  | cons y ys ih =>
    obtain ⟨hacc, hall⟩ := ih (joinRects acc y)
    refine ⟨rectCovers_trans hacc (joinRects_covers_left acc y), ?_⟩
    intro x hx
    rcases List.mem_cons.mp hx with hx | hx
    · rw [hx]; exact rectCovers_trans hacc (joinRects_covers_right acc y)
    · exact hall x hx

lemma getBoundingRect_covers (rs : List VRect) :
    ∀ x ∈ rs, rectCovers (getBoundingRect rs) x := by
  intro x hx
  cases rs with
  | nil => cases hx
  | cons y ys =>
    rcases List.mem_cons.mp hx with hx | hx
    · rw [hx]; exact (foldl_joinRects_covers ys y).1
    · exact (foldl_joinRects_covers ys y).2 x hx

lemma frameEq_refl (s : CompState) : frameEq s s := by
  unfold frameEq
  refine ⟨rfl, rfl, rfl, rfl, rfl, rfl, rfl, rfl, rfl, rfl, rfl, rfl, rfl⟩

lemma frameEq_trans {a b c : CompState} (h1 : frameEq a b) (h2 : frameEq b c) :
    frameEq a c := by
  obtain ⟨x1, x2, x3, x4, x5, x6, x7, x8, x9, x10, x11, x12, x13⟩ := h1
  obtain ⟨y1, y2, y3, y4, y5, y6, y7, y8, y9, y10, y11, y12, y13⟩ := h2
  exact ⟨x1.trans y1, x2.trans y2, x3.trans y3, x4.trans y4, x5.trans y5,
    x6.trans y6, x7.trans y7, x8.trans y8, x9.trans y9, x10.trans y10,
    x11.trans y11, x12.trans y12, x13.trans y13⟩

lemma renderHighlightLayer_frame (env : Env) (hr : HighlightRoot) (page : Nat)
    (s : CompState) : frameEq (renderHighlightLayer env hr page s) s := by
  unfold renderHighlightLayer frameEq
  split <;> simp

lemma createAndRender_frame (env : Env) (s : CompState) (page : Nat) :
    frameEq (createAndRender env s page) s := by
  unfold createAndRender
  cases h : findOrCreateHighlightLayer env s.dom page with
  | none => exact frameEq_refl s
  | some pr =>
    refine frameEq_trans (renderHighlightLayer_frame env _ page _) ?_
    unfold frameEq
    simp

lemma processPage_frame (env : Env) (s : CompState) (page : Nat) :
    frameEq (processPage env s page) s := by
  unfold processPage
  cases h : s.roots page with
  | none => exact createAndRender_frame env s page
  | some hr =>
    by_cases hc : s.dom.connected hr.container = true
    · simp only [hc, if_true]
      exact renderHighlightLayer_frame env hr page s
    · simp only [Bool.not_eq_true] at hc
      simp only [hc, Bool.false_eq_true, if_false]
      exact createAndRender_frame env s page

lemma foldl_processPage_frame (env : Env) (ps : List Nat) (s : CompState) :
    frameEq (ps.foldl (processPage env) s) s := by
  induction ps generalizing s with
  | nil => exact frameEq_refl s
  | cons p rest ih =>
    exact frameEq_trans (ih (processPage env s p)) (processPage_frame env s p)

lemma renderHighlightLayers_frame (env : Env) (s : CompState) :
    (renderHighlightLayers env s).tipPosition = s.tipPosition ∧
    (renderHighlightLayers env s).tipChildren = s.tipChildren ∧
    (renderHighlightLayers env s).tip = s.tip ∧
    (renderHighlightLayers env s).ghost = s.ghost ∧
    (renderHighlightLayers env s).isCollapsed = s.isCollapsed ∧
    (renderHighlightLayers env s).range = s.range ∧
    (renderHighlightLayers env s).scrolledToHighlightId =
      s.scrolledToHighlightId ∧
    (renderHighlightLayers env s).areaSelectionInProgress =
      s.areaSelectionInProgress ∧
    (renderHighlightLayers env s).renderCount = s.renderCount + 1 ∧
    (renderHighlightLayers env s).selectionFinishedCalls =
      s.selectionFinishedCalls ∧
    (renderHighlightLayers env s).onScrollChangeCalls = s.onScrollChangeCalls ∧
    (renderHighlightLayers env s).scrollListenerAttached =
      s.scrollListenerAttached ∧
    (renderHighlightLayers env s).reattachScheduled = s.reattachScheduled := by
  obtain ⟨x1, x2, x3, x4, x5, x6, x7, x8, x9, x10, x11, x12, x13⟩ :=
    foldl_processPage_frame env (pagesList env) s
  unfold renderHighlightLayers
  exact ⟨x1, x2, x3, x4, x5, x6, x7, x8, by simp [x9], x10, x11, x12, x13⟩

/-- Claim C2: for every rectangle, page viewport and value of the
PDF-coordinates flag, converting with `toScaled` and back with `toViewport`
under the same viewport yields the rectangle again (exactly, since the model
uses rational coordinates). -/
theorem claim_C2_round_trip (r : VRect) (vp : Viewport) (f : Bool)
    (h : vp.scale ≠ 0) :
    scaledToViewport (viewportToScaled r vp f) vp f = r := by
  obtain ⟨l, t, w, ht, pg⟩ := r
  cases f <;>
    simp only [viewportToScaled, scaledToViewport, Bool.false_eq_true,
      if_false, if_true, VRect.mk.injEq] <;>
    refine ⟨?_, ?_, ?_, ?_, trivial⟩ <;> field_simp <;> ring

/-- Witness for claim C2 at a concrete rectangle, viewport and flag. -/
theorem claim_C2_round_trip_witness :
    (Viewport.mk 2 100).scale ≠ 0 ∧
      scaledToViewport (viewportToScaled sampleVRect (Viewport.mk 2 100) true)
        (Viewport.mk 2 100) true = sampleVRect :=
  ⟨by decide,
    claim_C2_round_trip sampleVRect (Viewport.mk 2 100) true (by decide)⟩

lemma chain_head_lt {a : ℚ} {l : List ℚ}
    (h : List.Chain (fun x y => x < y ∧ y < x + debounceWait) a l) :
    ∀ x ∈ l, a < x := by
  induction l generalizing a with
  | nil => intro x hx; cases hx
  | cons b t ih =>
    cases h with
    | cons hab ht =>
      intro x hx
      rcases List.mem_cons.mp hx with hx | hx
      · rw [hx]; exact hab.1
      · exact lt_trans hab.1 (ih ht x hx)

/-- Claim C6: for a burst of selection-change events (consecutive events less
than the 100 ms debounce window apart), the debounced `afterSelection` fires
exactly once, 100 ms after the last event of the burst — so only after a
100 ms quiet period, and at most once for the burst. -/
theorem claim_C6_debounced_once (a : ℚ) (l : List ℚ)
    (h : List.Chain (fun x y => x < y ∧ y < x + debounceWait) a l) :
    debounceFires debounceWait (a :: l) = [l.getLastD a + debounceWait] := by
  induction l generalizing a with
  | nil =>
    simp [debounceFires, lt_irrefl]
  | cons b t ih =>
    cases h with
    | cons hab ht =>
      have hless : ∀ x ∈ b :: t, a < x := by
        intro x hx
        rcases List.mem_cons.mp hx with hx | hx
        · rw [hx]; exact hab.1
        · exact lt_trans hab.1 (chain_head_lt ht x hx)
      have hany :
          (a :: b :: t).any
              (fun e => decide (a < e) && decide (e < a + debounceWait)) =
            true := by
        rw [List.any_eq_true]
        refine ⟨b, List.mem_cons_of_mem a (List.mem_cons_self b t), ?_⟩
        simp [hab.1, hab.2]
      have hpred : ∀ x ∈ b :: t,
          (! (a :: b :: t).any
              (fun e => decide (x < e) && decide (e < x + debounceWait))) =
            (! (b :: t).any
              (fun e => decide (x < e) && decide (e < x + debounceWait))) := by
        intro x hx
        have hax : decide (x < a) = false :=
          decide_eq_false (not_lt.mpr (le_of_lt (hless x hx)))
        simp [List.any_cons, hax]
      unfold debounceFires
      rw [List.filter_cons]
      simp only [hany, Bool.not_true, Bool.false_eq_true, if_false]
      rw [List.filter_congr hpred, List.getLastD_cons]
      exact ih b ht

/-- Witness for claim C6 at a concrete three-event burst (0 ms, 50 ms,
120 ms): the debounced function fires once, at 220 ms. -/
theorem claim_C6_debounced_once_witness :
    List.Chain (fun x y : ℚ => x < y ∧ y < x + debounceWait) 0 [50, 120] ∧
      debounceFires debounceWait (0 :: [50, 120]) =
        [List.getLastD [50, 120] 0 + debounceWait] := by
  have hch : List.Chain (fun x y : ℚ => x < y ∧ y < x + debounceWait)
      0 [50, 120] := by
    refine List.Chain.cons ⟨?_, ?_⟩ (List.Chain.cons ⟨?_, ?_⟩ List.Chain.nil) <;>
      norm_num [debounceWait]
  exact ⟨hch, claim_C6_debounced_once 0 [50, 120] hch⟩

/-- Claim C9: whenever the current selection is non-collapsed, or a ghost
highlight exists, or an area selection is in progress, `showTip` returns with
the state unchanged — in particular the tip position and children stay
exactly as they were. -/
theorem claim_C9_showTip_frame (tip : Tip) (s : CompState)
    (h : s.isCollapsed = false ∨ s.ghost.isSome = true ∨
      s.areaSelectionInProgress = true) :
    showTip tip s = s := by
  unfold showTip
  have hc : (!s.isCollapsed || s.ghost.isSome || s.areaSelectionInProgress) =
      true := by
    rcases h with h | h | h <;> simp [h]
  simp [hc]

/-- Witness for claim C9: a pending ghost highlight blocks `showTip`. -/
theorem claim_C9_showTip_frame_witness :
    (ghostState.isCollapsed = false ∨ ghostState.ghost.isSome = true ∨
      ghostState.areaSelectionInProgress = true) ∧
      showTip sampleTip ghostState = ghostState :=
  ⟨Or.inr (Or.inl rfl),
    claim_C9_showTip_frame sampleTip ghostState (Or.inr (Or.inl rfl))⟩

lemma renderLayers_tipPosition (env : Env) (s : CompState) :
    (renderHighlightLayers env s).tipPosition = s.tipPosition :=
  (renderHighlightLayers_frame env s).1

lemma renderLayers_tipChildren (env : Env) (s : CompState) :
    (renderHighlightLayers env s).tipChildren = s.tipChildren :=
  (renderHighlightLayers_frame env s).2.1

lemma renderLayers_tip (env : Env) (s : CompState) :
    (renderHighlightLayers env s).tip = s.tip :=
  (renderHighlightLayers_frame env s).2.2.1

lemma renderLayers_ghost (env : Env) (s : CompState) :
    (renderHighlightLayers env s).ghost = s.ghost :=
  (renderHighlightLayers_frame env s).2.2.2.1

lemma renderLayers_isCollapsed (env : Env) (s : CompState) :
    (renderHighlightLayers env s).isCollapsed = s.isCollapsed :=
  (renderHighlightLayers_frame env s).2.2.2.2.1

lemma renderLayers_range (env : Env) (s : CompState) :
    (renderHighlightLayers env s).range = s.range :=
  (renderHighlightLayers_frame env s).2.2.2.2.2.1

lemma renderLayers_scrolledToHighlightId (env : Env) (s : CompState) :
    (renderHighlightLayers env s).scrolledToHighlightId =
      s.scrolledToHighlightId :=
  (renderHighlightLayers_frame env s).2.2.2.2.2.2.1

lemma renderLayers_areaSelectionInProgress (env : Env) (s : CompState) :
    (renderHighlightLayers env s).areaSelectionInProgress =
      s.areaSelectionInProgress :=
  (renderHighlightLayers_frame env s).2.2.2.2.2.2.2.1

lemma renderLayers_renderCount (env : Env) (s : CompState) :
    (renderHighlightLayers env s).renderCount = s.renderCount + 1 :=
  (renderHighlightLayers_frame env s).2.2.2.2.2.2.2.2.1

lemma renderLayers_selectionFinishedCalls (env : Env) (s : CompState) :
    (renderHighlightLayers env s).selectionFinishedCalls =
      s.selectionFinishedCalls :=
  (renderHighlightLayers_frame env s).2.2.2.2.2.2.2.2.2.1

lemma renderLayers_onScrollChangeCalls (env : Env) (s : CompState) :
    (renderHighlightLayers env s).onScrollChangeCalls =
      s.onScrollChangeCalls :=
  (renderHighlightLayers_frame env s).2.2.2.2.2.2.2.2.2.2.1

lemma renderLayers_scrollListenerAttached (env : Env) (s : CompState) :
    (renderHighlightLayers env s).scrollListenerAttached =
      s.scrollListenerAttached :=
  (renderHighlightLayers_frame env s).2.2.2.2.2.2.2.2.2.2.2.1

lemma renderLayers_reattachScheduled (env : Env) (s : CompState) :
    (renderHighlightLayers env s).reattachScheduled = s.reattachScheduled :=
  (renderHighlightLayers_frame env s).2.2.2.2.2.2.2.2.2.2.2.2

lemma handleScrollEvent_detached (env : Env) (s : CompState)
    (h : s.scrollListenerAttached = false) :
    handleScrollEvent env s = s := by
  unfold handleScrollEvent
  simp [h]

lemma iterate_handleScrollEvent_detached (env : Env) (s : CompState) (n : Nat)
    (h : s.scrollListenerAttached = false) :
    (handleScrollEvent env)^[n] s = s := by
  induction n with
  | zero => rfl
  | succ k ih =>
    rw [Function.iterate_succ_apply, handleScrollEvent_detached env s h]
    exact ih

/-- Claim C10: a scroll event handled while the listener is attached resets
the scrolled-to highlight id to null and re-renders the highlight layers;
`scrollTo` detaches the scroll listener first, so the browser scroll events
fired by the programmatic scroll (any number `n` of them) are ignored, the
target highlight's id is recorded, the layers re-render once, and the
listener re-attach is left scheduled. -/
theorem claim_C10_scroll_id_reset (env : Env) (s : CompState) (h : Highlight)
    (n : Nat) (hAtt : s.scrollListenerAttached = true) :
    (handleScrollEvent env s).scrolledToHighlightId = none ∧
      (handleScrollEvent env s).renderCount = s.renderCount + 1 ∧
      (scrollTo env h n s).scrolledToHighlightId = some h.id ∧
      (scrollTo env h n s).scrollListenerAttached = false ∧
      (scrollTo env h n s).reattachScheduled = true ∧
      (scrollTo env h n s).renderCount = s.renderCount + 1 := by
  have hiter : (handleScrollEvent env)^[n]
        { s with scrollListenerAttached := false } =
      { s with scrollListenerAttached := false } :=
    iterate_handleScrollEvent_detached env _ n rfl
  refine ⟨?_, ?_, ?_, ?_, ?_, ?_⟩
  · simp [handleScrollEvent, hAtt, onScroll, renderLayers_scrolledToHighlightId]
  · simp [handleScrollEvent, hAtt, onScroll, renderLayers_renderCount]
  · simp [scrollTo, hiter, renderLayers_scrolledToHighlightId]
  · simp [scrollTo, hiter, renderLayers_scrollListenerAttached]
  · simp [scrollTo, hiter]
  · simp [scrollTo, hiter, renderLayers_renderCount]

/-- Witness for claim C10 at a concrete state and highlight, with two browser
scroll events fired by the programmatic scroll. -/
theorem claim_C10_scroll_id_reset_witness :
    baseState.scrollListenerAttached = true ∧
      ((handleScrollEvent sampleEnv baseState).scrolledToHighlightId = none ∧
        (handleScrollEvent sampleEnv baseState).renderCount =
          baseState.renderCount + 1 ∧
        (scrollTo sampleEnv sampleHighlight 2
            baseState).scrolledToHighlightId = some sampleHighlight.id ∧
        (scrollTo sampleEnv sampleHighlight 2
            baseState).scrollListenerAttached = false ∧
        (scrollTo sampleEnv sampleHighlight 2 baseState).reattachScheduled =
          true ∧
        (scrollTo sampleEnv sampleHighlight 2 baseState).renderCount =
          baseState.renderCount + 1) :=
  ⟨rfl, claim_C10_scroll_id_reset sampleEnv baseState sampleHighlight 2 rfl⟩

/-- Claim C1, evaluated on the code: a pointer-down outside the tip container
does clear the tip position, the tip children and the ghost highlight, but
pressing Escape does not — `handleKeyDown` only re-renders the highlight
layers (the `hideTipAndGhostHighlight()` call at PdfHighlighter.tsx line 270
is commented out), leaving the finished selection's tip and pending ghost
highlight in place. -/
theorem claim_C1_escape_keeps_tip_and_ghost :
    (handleKeyDown escapeKey emptyEnv ghostTipState).ghost =
        some sampleGhost ∧
      (handleKeyDown escapeKey emptyEnv ghostTipState).tipPosition =
        some sampleVPos ∧
      (handleKeyDown escapeKey emptyEnv ghostTipState).tipChildren =
        some sampleElem ∧
      (handleKeyDown escapeKey emptyEnv ghostTipState).renderCount =
        ghostTipState.renderCount + 1 ∧
      (onMouseDown true false emptyEnv ghostTipState).ghost = none ∧
      (onMouseDown true false emptyEnv ghostTipState).tipPosition = none ∧
      (onMouseDown true false emptyEnv ghostTipState).tipChildren = none :=
  ⟨rfl, rfl, rfl, rfl, rfl, rfl, rfl⟩

/-- Claim C5: every failure mode of the selection and rendering pipeline —
missing selection or container, collapsed or empty selection, selection
outside the container, no pages in the range, zero-length client-rect list,
missing text layer — makes `onSelectionChange`, `afterSelection` and
`findOrCreateHighlightLayer` return early without touching the tip,
ghost-highlight or highlight-root state. -/
theorem claim_C5_failure_modes (env : Env) (s : CompState)
    (container : Option Unit) (sel : Selection) :
    DefensiveSpec env s container sel := by
  unfold DefensiveSpec
  refine ⟨rfl, ?_, ?_, ?_, ?_, ?_, ?_, ?_, ?_, ?_⟩
  · intro hc
    unfold onSelectionChange uiUntouched
    simp [hc]
  · intro hc hr
    cases container <;> simp [onSelectionChange, hc, hr]
  · intro hc
    unfold onSelectionChange
    cases hrr : sel.ranges.head? <;> simp [hc, hrr]
  · intro r hc hhead hin
    unfold onSelectionChange
    cases container <;> simp [hc, hhead, hin]
  · intro h
    unfold afterSelection
    simp [h]
  · intro h
    unfold afterSelection
    cases hr : s.range <;> simp [h]
  · intro r hr hp
    unfold afterSelection
    rcases Bool.eq_false_or_eq_true s.isCollapsed with hb | hb <;>
      simp [hr, hp, hb]
  · intro r hr hcr
    unfold afterSelection
    rcases Bool.eq_false_or_eq_true s.isCollapsed with hb | hb <;>
      cases hP : r.pages <;> simp [hr, hcr, hb, hP]
  · intro dom page h
    constructor
    · unfold findOrCreateHighlightLayer
      rw [h]
    · unfold createAndRender findOrCreateHighlightLayer
      rw [h]

/-- Witness for claim C5 at concrete states: a collapsed selection, and a
state with no stored range, both leave the pipeline state untouched. -/
theorem claim_C5_failure_modes_witness :
    DefensiveSpec sampleEnv baseState (some ()) (Selection.mk true [sampleRange]) ∧
      afterSelection sampleEnv baseState = baseState :=
  ⟨claim_C5_failure_modes sampleEnv baseState (some ())
      (Selection.mk true [sampleRange]),
    (claim_C5_failure_modes sampleEnv baseState (some ())
        (Selection.mk true [sampleRange])).2.2.2.2.2.1 rfl⟩

/-- Claim C4: finalizing a text selection invokes `onSelectionFinished`
exactly once, with the scaled position and the extracted text; the
finalization itself leaves the ghost highlight unchanged, the commit-as-ghost
continuation stores exactly that content and position as the ghost highlight
and re-renders, and the dismiss continuation clears the tip and the ghost
highlight — so a ghost highlight exists only between a commit and a
subsequent dismiss. -/
theorem claim_C4_selection_finished_once (env : Env) (s : CompState)
    (r : Range) (hr : s.range = some r) (hc : s.isCollapsed = false)
    (hp : r.pages ≠ []) (hcr : r.clientRects ≠ []) :
    SelectionFinishedSpec env s r := by
  have hpe : r.pages.isEmpty = false := by
    cases hpp : r.pages
    · exact absurd hpp hp
    · rfl
  have hce : r.clientRects.isEmpty = false := by
    cases hcc : r.clientRects
    · exact absurd hcc hcr
    · rfl
  unfold SelectionFinishedSpec
  refine ⟨?_, ?_, ?_, ?_, ?_, ?_⟩
  · unfold afterSelection
    simp [hr, hc, hpe, hce, selectionScaledPosition, selectionViewportPosition]
  · unfold afterSelection
    simp [hr, hc, hpe, hce, selectionViewportPosition]
  · unfold afterSelection
    simp [hr, hc, hpe, hce, selectionScaledPosition, selectionViewportPosition]
  · unfold afterSelection
    simp [hr, hc, hpe, hce]
  · intro t
    constructor
    · rw [transformSelection, renderLayers_ghost]
    · rw [transformSelection, renderLayers_renderCount]
  · intro t
    refine ⟨?_, ?_, ?_, ?_⟩
    · rw [hideTipAndGhostHighlight, renderLayers_ghost]
    · rw [hideTipAndGhostHighlight, renderLayers_tipPosition]
    · rw [hideTipAndGhostHighlight, renderLayers_tipChildren]
    · rw [hideTipAndGhostHighlight, renderLayers_renderCount]

/-- Witness for claim C4 at a concrete finished selection. -/
theorem claim_C4_selection_finished_once_witness :
    selectionState.range = some sampleRange ∧
      selectionState.isCollapsed = false ∧
      sampleRange.pages ≠ [] ∧ sampleRange.clientRects ≠ [] ∧
      SelectionFinishedSpec sampleEnv selectionState sampleRange :=
  ⟨rfl, rfl, by decide, by decide,
    claim_C4_selection_finished_once sampleEnv selectionState sampleRange rfl
      rfl (by decide) (by decide)⟩

/-- Claim C7: a finalized multi-rect selection yields a viewport position
holding exactly one bounding rectangle, the min/max reduction of all
constituent client rects (covering each of them), and the scaled position
handed to the caller is computed from that already-reduced position. -/
theorem claim_C7_bounding_reduction (env : Env) (s : CompState) (r : Range)
    (hr : s.range = some r) (hc : s.isCollapsed = false)
    (hp : r.pages ≠ []) (hcr : r.clientRects ≠ []) :
    BoundingReductionSpec env s r := by
  have hpe : r.pages.isEmpty = false := by
    cases hpp : r.pages
    · exact absurd hpp hp
    · rfl
  have hce : r.clientRects.isEmpty = false := by
    cases hcc : r.clientRects
    · exact absurd hcc hcr
    · rfl
  unfold BoundingReductionSpec
  refine ⟨?_, ?_, ?_⟩
  · unfold afterSelection
    simp [hr, hc, hpe, hce]
  · exact getBoundingRect_covers r.clientRects
  · unfold afterSelection
    simp [hr, hc, hpe, hce]

/-- Witness for claim C7 at a concrete two-rect selection. -/
theorem claim_C7_bounding_reduction_witness :
    twoRectState.range = some twoRectRange ∧
      twoRectState.isCollapsed = false ∧
      twoRectRange.pages ≠ [] ∧ twoRectRange.clientRects ≠ [] ∧
      BoundingReductionSpec sampleEnv twoRectState twoRectRange :=
  ⟨rfl, rfl, by decide, by decide,
    claim_C7_bounding_reduction sampleEnv twoRectState twoRectRange rfl rfl
      (by decide) (by decide)⟩

lemma createAndRender_none (env : Env) (s : CompState) (page : Nat)
    (h : env.pageTextLayer page = none) : createAndRender env s page = s := by
  unfold createAndRender findOrCreateHighlightLayer
  rw [h]

lemma processPage_not_connected (env : Env) (s : CompState) (page : Nat)
    (h : hasConnectedRoot s page = false) :
    processPage env s page = createAndRender env s page := by
  unfold hasConnectedRoot at h
  unfold processPage
  revert h
  cases hroot : s.roots page with
  | none => intro h; rfl
  | some hr =>
    intro h
    simp at h
    simp [h]

lemma createAndRender_spec (env : Env) (s : CompState) (page d : Nat)
    (hv : env.viewerPresent = true) (htl : env.pageTextLayer page = some d) :
    ∃ e, (createAndRender env s page).roots page =
        some { rootId := s.nextRoot, container := e } ∧
      (createAndRender env s page).dom.layerChild d = some e ∧
      (createAndRender env s page).rendered e = some (propsFor env s page) ∧
      (createAndRender env s page).nextRoot = s.nextRoot + 1 := by
  cases hlc : s.dom.layerChild d with
  | some e =>
    have hfc : findOrCreateHighlightLayer env s.dom page = some (e, s.dom) := by
      unfold findOrCreateHighlightLayer findOrCreateContainerLayer
      rw [htl]
      simp [hlc]
    refine ⟨e, ?_, ?_, ?_, ?_⟩ <;>
      · unfold createAndRender
        rw [hfc]
        simp [renderHighlightLayer, hv, hlc, propsFor]
  | none =>
    have hfc : findOrCreateHighlightLayer env s.dom page =
        some (s.dom.nextElem,
          { connected := fun e =>
              if e = s.dom.nextElem then s.dom.connected d
              else s.dom.connected e
            layerChild := fun x =>
              if x = d then some s.dom.nextElem else s.dom.layerChild x
            nextElem := s.dom.nextElem + 1 }) := by
      unfold findOrCreateHighlightLayer findOrCreateContainerLayer
      rw [htl]
      simp [hlc]
    refine ⟨s.dom.nextElem, ?_, ?_, ?_, ?_⟩ <;>
      · unfold createAndRender
        rw [hfc]
        simp [renderHighlightLayer, hv, propsFor]

/-- Claim C3: for every page, rendering reuses the page's existing React root
while its container is still connected to the document; with the container
detached (or no root yet) it never renders into the stale root but lazily
obtains a highlight-layer container and a fresh root as soon as the page's
text layer exists; and a page with no text layer (and no connected root) is
skipped entirely. -/
theorem claim_C3_layer_reuse (env : Env) (s : CompState) (page : Nat)
    (hv : env.viewerPresent = true)
    (halloc : ∀ hr, s.roots page = some hr → hr.rootId < s.nextRoot) :
    LayerReuseSpec env s page := by
  unfold LayerReuseSpec
  refine ⟨?_, ?_, ?_⟩
  · intro hr hroot hconn
    unfold processPage
    rw [hroot]
    simp [hconn, renderHighlightLayer, hv, propsFor, hroot]
  · intro hnc d htl
    obtain ⟨e, h1, h2, h3, h4⟩ := createAndRender_spec env s page d hv htl
    rw [processPage_not_connected env s page hnc]
    exact ⟨e, h1, h2, h3, h4,
      fun hr0 h0 => Nat.ne_of_lt (halloc hr0 h0)⟩
  · intro hnc htl
    rw [processPage_not_connected env s page hnc]
    exact createAndRender_none env s page htl

/-- Witness for claim C3 at a concrete page of a one-page document. -/
theorem claim_C3_layer_reuse_witness :
    sampleEnv.viewerPresent = true ∧
      (∀ hr, baseState.roots 1 = some hr → hr.rootId < baseState.nextRoot) ∧
      LayerReuseSpec sampleEnv baseState 1 :=
  ⟨rfl, by intro hr h; simp [baseState] at h,
    claim_C3_layer_reuse sampleEnv baseState 1 rfl
      (by intro hr h; simp [baseState] at h)⟩

lemma propsFor_frame (env : Env) {s t : CompState} (h1 : t.ghost = s.ghost)
    (h2 : t.scrolledToHighlightId = s.scrolledToHighlightId) (p : Nat) :
    propsFor env t p = propsFor env s p := by
  unfold propsFor
  rw [h1, h2]

lemma renderHighlightLayer_skeleton (env : Env) (hr : HighlightRoot)
    (page : Nat) (s : CompState) :
    (renderHighlightLayer env hr page s).dom = s.dom ∧
      (renderHighlightLayer env hr page s).roots = s.roots ∧
      (renderHighlightLayer env hr page s).nextRoot = s.nextRoot := by
  unfold renderHighlightLayer
  split <;> simp

lemma renderHighlightLayer_rendered (env : Env) (hr : HighlightRoot)
    (page : Nat) (s : CompState) (hv : env.viewerPresent = true) :
    (renderHighlightLayer env hr page s).rendered = fun c =>
      if c = hr.container then some (propsFor env s page)
      else s.rendered c := by
  unfold renderHighlightLayer
  simp [hv]

lemma findOrCreateContainerLayer_eq (dom : Dom) (d : Nat) :
    (∃ e, dom.layerChild d = some e ∧
      findOrCreateContainerLayer dom d = (e, dom)) ∨
    (dom.layerChild d = none ∧
      findOrCreateContainerLayer dom d =
        (dom.nextElem,
          { connected := fun x =>
              if x = dom.nextElem then dom.connected d else dom.connected x
            layerChild := fun x =>
              if x = d then some dom.nextElem else dom.layerChild x
            nextElem := dom.nextElem + 1 })) := by
  cases hlc : dom.layerChild d with
  | some e =>
    refine Or.inl ⟨e, rfl, ?_⟩
    unfold findOrCreateContainerLayer
    rw [hlc]
  | none =>
    refine Or.inr ⟨rfl, ?_⟩
    unfold findOrCreateContainerLayer
    rw [hlc]

lemma createAndRender_cases (env : Env) (s : CompState) (page : Nat) :
    (createAndRender env s page = s ∧ env.pageTextLayer page = none) ∨
    (∃ d e dom2, env.pageTextLayer page = some d ∧
      findOrCreateContainerLayer s.dom d = (e, dom2) ∧
      createAndRender env s page =
        renderHighlightLayer env { rootId := s.nextRoot, container := e } page
          { s with
              dom := dom2
              nextRoot := s.nextRoot + 1
              roots := fun p =>
                if p = page then
                  some { rootId := s.nextRoot, container := e }
                else s.roots p }) := by
  cases htl : env.pageTextLayer page with
  | none => exact Or.inl ⟨createAndRender_none env s page htl, rfl⟩
  | some d =>
    cases hfc : findOrCreateContainerLayer s.dom d with
    | mk e dom2 =>
      refine Or.inr ⟨d, e, dom2, rfl, hfc, ?_⟩
      unfold createAndRender findOrCreateHighlightLayer
      rw [htl]
      simp [hfc]

lemma processPage_connected (env : Env) (s : CompState) (page : Nat)
    (hr : HighlightRoot) (h1 : s.roots page = some hr)
    (h2 : s.dom.connected hr.container = true) :
    processPage env s page = renderHighlightLayer env hr page s := by
  unfold processPage
  rw [h1]
  simp [h2]

lemma hasConnectedRoot_true (s : CompState) (page : Nat) :
    hasConnectedRoot s page = true ↔
      ∃ hr, s.roots page = some hr ∧
        s.dom.connected hr.container = true := by
  unfold hasConnectedRoot
  cases h : s.roots page <;> simp

lemma WfRender_intro (env : Env) (t : CompState) (dm : Dom)
    (rt : Nat → Option HighlightRoot) (hd : t.dom = dm) (hr : t.roots = rt)
    (h1 : ∀ p d, env.pageTextLayer p = some d → d < dm.nextElem)
    (h2 : ∀ d e, dm.layerChild d = some e → e < dm.nextElem)
    (h3 : ∀ p q d, env.pageTextLayer p = some d →
      env.pageTextLayer q = some d → p = q)
    (h4 : ∀ d1 d2 e, dm.layerChild d1 = some e → dm.layerChild d2 = some e →
      d1 = d2)
    (h5 : ∀ p hr0, rt p = some hr0 →
      ∃ d, env.pageTextLayer p = some d ∧
        dm.layerChild d = some hr0.container) :
    WfRender env t := by
  unfold WfRender
  rw [hd, hr]
  exact ⟨h1, h2, h3, h4, h5⟩

lemma createAndRender_WF (env : Env) (s : CompState) (page : Nat)
    (hwf : WfRender env s) : WfRender env (createAndRender env s page) := by
  obtain ⟨hb1, hb2, hinjT, hinjL, hroots⟩ := hwf
  rcases createAndRender_cases env s page with ⟨heq, _⟩ |
    ⟨d, e, dom2, htl, hfc, heq⟩
  · rw [heq]
    exact ⟨hb1, hb2, hinjT, hinjL, hroots⟩
  · rw [heq]
    rcases findOrCreateContainerLayer_eq s.dom d with ⟨e0, hlc, hfc0⟩ |
      ⟨hlc, hfc0⟩
    · rw [hfc0] at hfc
      injection hfc with he hdom2
      subst he
      subst hdom2
      refine WfRender_intro env _ s.dom
        (fun p => if p = page then
            some { rootId := s.nextRoot, container := e0 }
          else s.roots p)
        (by rw [(renderHighlightLayer_skeleton env _ page _).1])
        (by rw [(renderHighlightLayer_skeleton env _ page _).2.1])
        hb1 hb2 hinjT hinjL ?_
      intro p hr0 h
      have hh : (if p = page then
          some { rootId := s.nextRoot, container := e0 }
        else s.roots p) = some hr0 := h
      by_cases hpp : p = page
      · subst hpp
        rw [if_pos rfl] at hh
        injection hh with hh
        exact ⟨d, htl, by rw [← hh]; exact hlc⟩
      · rw [if_neg hpp] at hh
        exact hroots p hr0 hh
    · rw [hfc0] at hfc
      injection hfc with he hdom2
      subst he
      subst hdom2
      refine WfRender_intro env _
        { connected := fun x =>
            if x = s.dom.nextElem then s.dom.connected d
            else s.dom.connected x
          layerChild := fun x =>
            if x = d then some s.dom.nextElem else s.dom.layerChild x
          nextElem := s.dom.nextElem + 1 }
        (fun p => if p = page then
            some { rootId := s.nextRoot, container := s.dom.nextElem }
          else s.roots p)
        (by rw [(renderHighlightLayer_skeleton env _ page _).1])
        (by rw [(renderHighlightLayer_skeleton env _ page _).2.1])
        ?_ ?_ hinjT ?_ ?_
      · intro p d0 h
        exact Nat.lt_succ_of_lt (hb1 p d0 h)
      · intro d0 e0 h
        have hh : (if d0 = d then some s.dom.nextElem
          else s.dom.layerChild d0) = some e0 := h
        by_cases hd0 : d0 = d
        · rw [if_pos hd0] at hh
          injection hh with hh
          rw [← hh]
          exact Nat.lt_succ_self _
        · rw [if_neg hd0] at hh
          exact Nat.lt_succ_of_lt (hb2 d0 e0 hh)
      · intro d1 d2 e0 hg1 hg2
        have hh1 : (if d1 = d then some s.dom.nextElem
          else s.dom.layerChild d1) = some e0 := hg1
        have hh2 : (if d2 = d then some s.dom.nextElem
          else s.dom.layerChild d2) = some e0 := hg2
        by_cases hd1 : d1 = d <;> by_cases hd2 : d2 = d
        · rw [hd1, hd2]
        · rw [if_pos hd1] at hh1
          rw [if_neg hd2] at hh2
          injection hh1 with hh1
          rw [← hh1] at hh2
          exact absurd (hb2 d2 s.dom.nextElem hh2) (Nat.lt_irrefl _)
        · rw [if_neg hd1] at hh1
          rw [if_pos hd2] at hh2
          injection hh2 with hh2
          rw [← hh2] at hh1
          exact absurd (hb2 d1 s.dom.nextElem hh1) (Nat.lt_irrefl _)
        · rw [if_neg hd1] at hh1
          rw [if_neg hd2] at hh2
          exact hinjL d1 d2 e0 hh1 hh2
      · intro p hr0 h
        have hh : (if p = page then
            some { rootId := s.nextRoot, container := s.dom.nextElem }
          else s.roots p) = some hr0 := h
        by_cases hpp : p = page
        · subst hpp
          rw [if_pos rfl] at hh
          injection hh with hh
          refine ⟨d, htl, ?_⟩
          show (if d = d then some s.dom.nextElem
            else s.dom.layerChild d) = some hr0.container
          rw [← hh]
          simp
        · rw [if_neg hpp] at hh
          obtain ⟨dp, hdp, hcp⟩ := hroots p hr0 hh
          refine ⟨dp, hdp, ?_⟩
          show (if dp = d then some s.dom.nextElem
            else s.dom.layerChild dp) = some hr0.container
          by_cases hdd : dp = d
          · rw [hdd, hlc] at hcp
            simp at hcp
          · rw [if_neg hdd]
            exact hcp

lemma processPage_WF (env : Env) (s : CompState) (page : Nat)
    (hwf : WfRender env s) : WfRender env (processPage env s page) := by
  cases hcr : hasConnectedRoot s page with
  | true =>
    obtain ⟨hr, h1, h2⟩ := (hasConnectedRoot_true s page).mp hcr
    rw [processPage_connected env s page hr h1 h2]
    obtain ⟨hb1, hb2, hinjT, hinjL, hroots⟩ := hwf
    exact WfRender_intro env _ s.dom s.roots
      (renderHighlightLayer_skeleton env hr page s).1
      (renderHighlightLayer_skeleton env hr page s).2.1
      hb1 hb2 hinjT hinjL hroots
  | false =>
    rw [processPage_not_connected env s page hcr]
    exact createAndRender_WF env s page hwf

lemma processPage_pageRendered (env : Env) (s : CompState) (page : Nat)
    (hv : env.viewerPresent = true) (hwf : WfRender env s) :
    pageRendered env (processPage env s page) page := by
  cases hcr : hasConnectedRoot s page with
  | true =>
    obtain ⟨hr, h1, h2⟩ := (hasConnectedRoot_true s page).mp hcr
    rw [processPage_connected env s page hr h1 h2]
    intro d htl
    obtain ⟨d2, hd2, hc2⟩ := hwf.2.2.2.2 page hr h1
    have hdd : d2 = d := by
      rw [htl] at hd2
      injection hd2 with hd2
      rw [hd2]
    rw [hdd] at hc2
    refine ⟨hr.container, hr.rootId, ?_, ?_, ?_⟩
    · rw [(renderHighlightLayer_skeleton env hr page s).1]
      exact hc2
    · rw [(renderHighlightLayer_skeleton env hr page s).2.1]
      exact h1
    · have hpf : propsFor env (renderHighlightLayer env hr page s) page =
          propsFor env s page :=
        propsFor_frame env (renderHighlightLayer_frame env hr page s).2.2.2.1
          (renderHighlightLayer_frame env hr page s).2.2.2.2.2.2.1 page
      rw [renderHighlightLayer_rendered env hr page s hv, hpf]
      simp
  | false =>
    rw [processPage_not_connected env s page hcr]
    intro d htl
    obtain ⟨e, h1, h2, h3, h4⟩ := createAndRender_spec env s page d hv htl
    refine ⟨e, s.nextRoot, h2, h1, ?_⟩
    have hpf : propsFor env (createAndRender env s page) page =
        propsFor env s page :=
      propsFor_frame env (createAndRender_frame env s page).2.2.2.1
        (createAndRender_frame env s page).2.2.2.2.2.2.1 page
    rw [hpf]
    exact h3

lemma processPage_mono (env : Env) (s : CompState) (page : Nat) :
    s.dom.nextElem ≤ (processPage env s page).dom.nextElem ∧
      (∀ d e, s.dom.layerChild d = some e →
        (processPage env s page).dom.layerChild d = some e) ∧
      (∀ x, x < s.dom.nextElem →
        (processPage env s page).dom.connected x = s.dom.connected x) ∧
      (∀ q, q ≠ page → (processPage env s page).roots q = s.roots q) := by
  cases hcr : hasConnectedRoot s page with
  | true =>
    obtain ⟨hr, h1, h2⟩ := (hasConnectedRoot_true s page).mp hcr
    rw [processPage_connected env s page hr h1 h2]
    rw [(renderHighlightLayer_skeleton env hr page s).1,
      (renderHighlightLayer_skeleton env hr page s).2.1]
    exact ⟨le_refl _, fun d e h => h, fun x _ => rfl, fun q _ => rfl⟩
  | false =>
    rw [processPage_not_connected env s page hcr]
    rcases createAndRender_cases env s page with ⟨heq, _⟩ |
      ⟨d, e, dom2, htl, hfc, heq⟩
    · rw [heq]
      exact ⟨le_refl _, fun d e h => h, fun x _ => rfl, fun q _ => rfl⟩
    · rw [heq]
      rw [(renderHighlightLayer_skeleton env _ page _).1,
        (renderHighlightLayer_skeleton env _ page _).2.1]
      rcases findOrCreateContainerLayer_eq s.dom d with ⟨e0, hlc, hfc0⟩ |
        ⟨hlc, hfc0⟩
      · rw [hfc0] at hfc
        injection hfc with he hdom2
        subst he
        subst hdom2
        refine ⟨le_refl _, fun d0 e1 h => h, fun x _ => rfl, ?_⟩
        intro q hq
        show (if q = page then
            some { rootId := s.nextRoot, container := e0 }
          else s.roots q) = s.roots q
        rw [if_neg hq]
      · rw [hfc0] at hfc
        injection hfc with he hdom2
        subst he
        subst hdom2
        refine ⟨?_, ?_, ?_, ?_⟩
        · exact Nat.le_succ _
        · intro d0 e1 h
          show (if d0 = d then some s.dom.nextElem
            else s.dom.layerChild d0) = some e1
          by_cases hd0 : d0 = d
          · rw [hd0] at h
            rw [h] at hlc
            exact absurd hlc (by simp)
          · rw [if_neg hd0]
            exact h
        · intro x hx
          show (if x = s.dom.nextElem then s.dom.connected d
            else s.dom.connected x) = s.dom.connected x
          rw [if_neg (Nat.ne_of_lt hx)]
        · intro q hq
          show (if q = page then
              some { rootId := s.nextRoot, container := s.dom.nextElem }
            else s.roots q) = s.roots q
          rw [if_neg hq]

lemma processPage_rendered_untouched (env : Env) (s : CompState) (page e : Nat)
    (hwf : WfRender env s) (hb : e < s.dom.nextElem)
    (hnl : ∀ d, env.pageTextLayer page = some d →
      s.dom.layerChild d ≠ some e) :
    (processPage env s page).rendered e = s.rendered e := by
  cases hcr : hasConnectedRoot s page with
  | true =>
    obtain ⟨hr, h1, h2⟩ := (hasConnectedRoot_true s page).mp hcr
    rw [processPage_connected env s page hr h1 h2]
    obtain ⟨d2, hd2, hc2⟩ := hwf.2.2.2.2 page hr h1
    have hne : e ≠ hr.container := by
      intro hEq
      refine hnl d2 hd2 ?_
      rw [← hEq] at hc2
      exact hc2
    unfold renderHighlightLayer
    split
    · show (if e = hr.container then some (propsFor env s page)
        else s.rendered e) = s.rendered e
      rw [if_neg hne]
    · rfl
  | false =>
    rw [processPage_not_connected env s page hcr]
    rcases createAndRender_cases env s page with ⟨heq, _⟩ |
      ⟨d, e2, dom2, htl, hfc, heq⟩
    · rw [heq]
    · rw [heq]
      rcases findOrCreateContainerLayer_eq s.dom d with ⟨e0, hlc, hfc0⟩ |
        ⟨hlc, hfc0⟩
      · rw [hfc0] at hfc
        injection hfc with he hdom2
        subst he
        subst hdom2
        have hne : e ≠ e0 := by
          intro hEq
          refine hnl d htl ?_
          rw [hEq]
          exact hlc
        unfold renderHighlightLayer
        split
        · show (if e = e0 then _ else s.rendered e) = s.rendered e
          rw [if_neg hne]
        · rfl
      · rw [hfc0] at hfc
        injection hfc with he hdom2
        subst he
        subst hdom2
        have hne : e ≠ s.dom.nextElem := Nat.ne_of_lt hb
        unfold renderHighlightLayer
        split
        · show (if e = s.dom.nextElem then _ else s.rendered e) = s.rendered e
          rw [if_neg hne]
        · rfl

lemma processPage_preserves_pageRendered (env : Env) (s : CompState)
    (page q : Nat) (hwf : WfRender env s) (hq : pageRendered env s q)
    (hne : q ≠ page) : pageRendered env (processPage env s page) q := by
  intro d htl
  obtain ⟨e, r, hlc, hroot, hrend⟩ := hq d htl
  obtain ⟨hmono1, hmono2, hmono3, hmono4⟩ := processPage_mono env s page
  refine ⟨e, r, hmono2 d e hlc, ?_, ?_⟩
  · rw [hmono4 q hne]
    exact hroot
  · have hbound : e < s.dom.nextElem := hwf.2.1 d e hlc
    have hnl : ∀ dp, env.pageTextLayer page = some dp →
        s.dom.layerChild dp ≠ some e := by
      intro dp hdp hcontra
      have hdd : dp = d := hwf.2.2.2.1 dp d e hcontra hlc
      rw [hdd] at hdp
      exact hne (hwf.2.2.1 q page d htl hdp)
    rw [processPage_rendered_untouched env s page e hwf hbound hnl, hrend,
      propsFor_frame env (processPage_frame env s page).2.2.2.1
        (processPage_frame env s page).2.2.2.2.2.2.1 q]

lemma foldl_WF (env : Env) (ps : List Nat) (s : CompState)
    (hwf : WfRender env s) : WfRender env (ps.foldl (processPage env) s) := by
  induction ps generalizing s with
  | nil => exact hwf
  | cons a l ih => exact ih (processPage env s a) (processPage_WF env s a hwf)

lemma foldl_preserves_pageRendered (env : Env) (ps : List Nat) (s : CompState)
    (q : Nat) (hwf : WfRender env s) (hq : pageRendered env s q)
    (hnm : q ∉ ps) :
    pageRendered env (ps.foldl (processPage env) s) q := by
  induction ps generalizing s with
  | nil => exact hq
  | cons a l ih =>
    have hqa : q ≠ a := fun h => hnm (h ▸ List.mem_cons_self a l)
    exact ih (processPage env s a) (processPage_WF env s a hwf)
      (processPage_preserves_pageRendered env s a q hwf hq hqa)
      (fun h => hnm (List.mem_cons_of_mem a h))

lemma foldl_pageRendered_all (env : Env) (ps : List Nat) (s : CompState)
    (hv : env.viewerPresent = true) (hwf : WfRender env s)
    (hnd : ps.Nodup) :
    ∀ p ∈ ps, pageRendered env (ps.foldl (processPage env) s) p := by
  induction ps generalizing s with
  | nil =>
    intro p hp
    cases hp
  | cons a l ih =>
    intro p hp
    rw [List.foldl_cons]
    rcases List.mem_cons.mp hp with hpa | hpl
    · rw [hpa]
      exact foldl_preserves_pageRendered env l (processPage env s a) a
        (processPage_WF env s a hwf)
        (processPage_pageRendered env s a hv hwf)
        (List.nodup_cons.mp hnd).1
    · exact ih (processPage env s a) (processPage_WF env s a hwf)
        (List.nodup_cons.mp hnd).2 p hpl

lemma processPage_stable (env : Env) (s : CompState) (page : Nat)
    (hv : env.viewerPresent = true) (hwf : WfRender env s)
    (hpr : pageRendered env s page) :
    (processPage env s page).rendered = s.rendered ∧
      (processPage env s page).dom = s.dom ∧
      (∀ q, q ≠ page → (processPage env s page).roots q = s.roots q) ∧
      pageRendered env (processPage env s page) page := by
  cases htl : env.pageTextLayer page with
  | none =>
    have hrn : s.roots page = none := by
      cases hroot : s.roots page with
      | none => rfl
      | some hr =>
        obtain ⟨d2, hd2, _⟩ := hwf.2.2.2.2 page hr hroot
        rw [htl] at hd2
        exact Option.noConfusion hd2
    have hnc : hasConnectedRoot s page = false := by
      unfold hasConnectedRoot
      rw [hrn]
    rw [processPage_not_connected env s page hnc,
      createAndRender_none env s page htl]
    refine ⟨rfl, rfl, fun q _ => rfl, ?_⟩
    intro d hd
    rw [htl] at hd
    exact Option.noConfusion hd
  | some d =>
    obtain ⟨e, r, hlc, hroot, hrend⟩ := hpr d htl
    cases hconn : s.dom.connected e with
    | true =>
      have h2 : s.dom.connected
          (HighlightRoot.mk r e).container = true := hconn
      rw [processPage_connected env s page (HighlightRoot.mk r e) hroot h2]
      have hpf : propsFor env (renderHighlightLayer env
            (HighlightRoot.mk r e) page s) page = propsFor env s page :=
        propsFor_frame env
          (renderHighlightLayer_frame env (HighlightRoot.mk r e) page s).2.2.2.1
          (renderHighlightLayer_frame env
            (HighlightRoot.mk r e) page s).2.2.2.2.2.2.1 page
      have hrfun : (renderHighlightLayer env
          (HighlightRoot.mk r e) page s).rendered = s.rendered := by
        rw [renderHighlightLayer_rendered env (HighlightRoot.mk r e) page s hv]
        funext c
        by_cases hc : c = e
        · rw [if_pos hc, hc, hrend]
        · rw [if_neg hc]
      refine ⟨hrfun, (renderHighlightLayer_skeleton env _ page s).1, ?_, ?_⟩
      · intro q _
        rw [(renderHighlightLayer_skeleton env _ page s).2.1]
      · intro d0 hd0
        have hdd : d0 = d := by
          rw [htl] at hd0
          injection hd0 with hd0
          rw [hd0]
        rw [hdd]
        refine ⟨e, r, ?_, ?_, ?_⟩
        · rw [(renderHighlightLayer_skeleton env _ page s).1]
          exact hlc
        · rw [(renderHighlightLayer_skeleton env _ page s).2.1]
          exact hroot
        · rw [hrfun, hrend, hpf]
    | false =>
      have hnc : hasConnectedRoot s page = false := by
        unfold hasConnectedRoot
        rw [hroot]
        exact hconn
      rw [processPage_not_connected env s page hnc]
      rcases createAndRender_cases env s page with ⟨heq, htl0⟩ |
        ⟨d2, e2, dom2, htl2, hfc2, heq⟩
      · rw [htl] at htl0
        exact Option.noConfusion htl0
      · have hdd : d2 = d := by
          rw [htl] at htl2
          injection htl2 with htl2
          rw [htl2]
        rw [hdd] at hfc2
        rcases findOrCreateContainerLayer_eq s.dom d with ⟨e0, hlc0, hfc0⟩ |
          ⟨hlc0, hfc0⟩
        · have hee : e0 = e := by
            rw [hlc] at hlc0
            injection hlc0 with h
            rw [h]
          rw [hee] at hfc0
          rw [hfc0] at hfc2
          injection hfc2 with he2 hdom2
          rw [← he2, ← hdom2] at heq
          rw [heq]
          have hpf2 : propsFor env
              { s with
                  dom := s.dom
                  nextRoot := s.nextRoot + 1
                  roots := fun p =>
                    if p = page then
                      some { rootId := s.nextRoot, container := e }
                    else s.roots p } page = propsFor env s page :=
            propsFor_frame env rfl rfl page
          have hrfun : (renderHighlightLayer env
              { rootId := s.nextRoot, container := e } page
              { s with
                  dom := s.dom
                  nextRoot := s.nextRoot + 1
                  roots := fun p =>
                    if p = page then
                      some { rootId := s.nextRoot, container := e }
                    else s.roots p }).rendered = s.rendered := by
            rw [renderHighlightLayer_rendered env _ page _ hv, hpf2]
            funext c
            by_cases hc : c = e
            · show (if c = e then some (propsFor env s page)
                else s.rendered c) = s.rendered c
              rw [if_pos hc, hc, hrend]
            · show (if c = e then some (propsFor env s page)
                else s.rendered c) = s.rendered c
              rw [if_neg hc]
          have hpf3 : propsFor env (renderHighlightLayer env
              { rootId := s.nextRoot, container := e } page
              { s with
                  dom := s.dom
                  nextRoot := s.nextRoot + 1
                  roots := fun p =>
                    if p = page then
                      some { rootId := s.nextRoot, container := e }
                    else s.roots p }) page = propsFor env s page := by
            rw [propsFor_frame env
              (renderHighlightLayer_frame env _ page _).2.2.2.1
              (renderHighlightLayer_frame env _ page _).2.2.2.2.2.2.1 page]
            exact hpf2
          refine ⟨hrfun, ?_, ?_, ?_⟩
          · rw [(renderHighlightLayer_skeleton env _ page _).1]
          · intro q hq
            rw [(renderHighlightLayer_skeleton env _ page _).2.1]
            show (if q = page then
                some { rootId := s.nextRoot, container := e }
              else s.roots q) = s.roots q
            rw [if_neg hq]
          · intro d0 hd0
            have hdd0 : d0 = d := by
              rw [htl] at hd0
              injection hd0 with hd0
              rw [hd0]
            rw [hdd0]
            refine ⟨e, s.nextRoot, ?_, ?_, ?_⟩
            · rw [(renderHighlightLayer_skeleton env _ page _).1]
              exact hlc
            · rw [(renderHighlightLayer_skeleton env _ page _).2.1]
              show (if page = page then
                  some { rootId := s.nextRoot, container := e }
                else s.roots page) =
                some { rootId := s.nextRoot, container := e }
              rw [if_pos rfl]
            · rw [hrfun, hrend, hpf3]
        · rw [hlc] at hlc0
          exact Option.noConfusion hlc0

lemma foldl_stable (env : Env) (ps : List Nat) (s : CompState)
    (hv : env.viewerPresent = true) (hwf : WfRender env s)
    (hall : ∀ p ∈ ps, pageRendered env s p) :
    (ps.foldl (processPage env) s).rendered = s.rendered := by
  induction ps generalizing s with
  | nil => rfl
  | cons a l ih =>
    obtain ⟨hr1, hr2, hr3, hr4⟩ :=
      processPage_stable env s a hv hwf (hall a (List.mem_cons_self a l))
    have hall2 : ∀ p ∈ l, pageRendered env (processPage env s a) p := by
      intro p hp
      by_cases hpa : p = a
      · rw [hpa]
        exact hr4
      · intro d hd
        obtain ⟨e, r, hlc, hroot, hrend⟩ :=
          hall p (List.mem_cons_of_mem a hp) d hd
        refine ⟨e, r, ?_, ?_, ?_⟩
        · rw [hr2]
          exact hlc
        · rw [hr3 p hpa]
          exact hroot
        · rw [hr1, hrend,
            propsFor_frame env (processPage_frame env s a).2.2.2.1
              (processPage_frame env s a).2.2.2.2.2.2.1 p]
    rw [List.foldl_cons,
      ih (processPage env s a) (processPage_WF env s a hwf) hall2, hr1]

lemma pagesList_nodup (env : Env) : (pagesList env).Nodup := by
  unfold pagesList
  exact List.Nodup.map (fun a b h => by omega) (List.nodup_range _)

lemma renderHighlightLayers_eq (env : Env) (s : CompState) :
    renderHighlightLayers env s =
      { (pagesList env).foldl (processPage env) s with
        renderCount :=
          ((pagesList env).foldl (processPage env) s).renderCount + 1 } := rfl

/-- Claim C8: rendering the highlight layers is idempotent — with the
highlight set, ghost highlight and viewports unchanged, running
`renderHighlightLayers` twice leaves exactly the per-container rendered
props (hence the per-page highlight rectangle set) of a single run. -/
theorem claim_C8_render_idempotent (env : Env) (s : CompState)
    (hv : env.viewerPresent = true) (hwf : WfRender env s) :
    (renderHighlightLayers env (renderHighlightLayers env s)).rendered =
      (renderHighlightLayers env s).rendered := by
  have hwf1 := foldl_WF env (pagesList env) s hwf
  have hall1 := foldl_pageRendered_all env (pagesList env) s hv hwf
    (pagesList_nodup env)
  have hwf2 : WfRender env
      { (pagesList env).foldl (processPage env) s with
        renderCount :=
          ((pagesList env).foldl (processPage env) s).renderCount + 1 } :=
    hwf1
  have hall2 : ∀ p ∈ pagesList env, pageRendered env
      { (pagesList env).foldl (processPage env) s with
        renderCount :=
          ((pagesList env).foldl (processPage env) s).renderCount + 1 } p :=
    hall1
  have hst := foldl_stable env (pagesList env)
    { (pagesList env).foldl (processPage env) s with
      renderCount :=
        ((pagesList env).foldl (processPage env) s).renderCount + 1 }
    hv hwf2 hall2
  rw [renderHighlightLayers_eq env s, renderHighlightLayers_eq env _]
  exact hst

/-- Witness for claim C8: a freshly mounted one-page component. -/
theorem claim_C8_render_idempotent_witness :
    sampleEnv.viewerPresent = true ∧ WfRender sampleEnv baseState ∧
      (renderHighlightLayers sampleEnv
          (renderHighlightLayers sampleEnv baseState)).rendered =
        (renderHighlightLayers sampleEnv baseState).rendered := by
  have hwfb : WfRender sampleEnv baseState := by
    refine ⟨?_, ?_, ?_, ?_, ?_⟩
    · intro p d h
      have hh : (if p = 1 then some (0 : Nat) else none) = some d := h
      by_cases hp : p = 1
      · rw [if_pos hp] at hh
        injection hh with hh
        show d < baseState.dom.nextElem
        rw [← hh]
        exact Nat.zero_lt_one
      · rw [if_neg hp] at hh
        exact Option.noConfusion hh
    · intro d e h
      exact Option.noConfusion h
    · intro p q d h1 h2
      have hh1 : (if p = 1 then some (0 : Nat) else none) = some d := h1
      have hh2 : (if q = 1 then some (0 : Nat) else none) = some d := h2
      by_cases hp : p = 1
      · by_cases hq : q = 1
        · rw [hp, hq]
        · rw [if_neg hq] at hh2
          exact Option.noConfusion hh2
      · rw [if_neg hp] at hh1
        exact Option.noConfusion hh1
    · intro d1 d2 e h1 h2
      exact Option.noConfusion h1
    · intro p hr h
      exact Option.noConfusion h
  exact ⟨rfl, hwfb, claim_C8_render_idempotent sampleEnv baseState rfl hwfb⟩
